import Mathlib

/-!
Verification development for the Network-analyzer repository.

The scanning and measurement engine is shallowly embedded below:
* `src/utils/cidrUtils.ts` — `ipToLong`, `longToIp`, `parseCidr`;
* `src/services/networkService.ts` — `checkStability`, `scanIp`
  (port probes, which are WebSocket I/O, are abstracted as outcome
  functions/lists supplied to the pure logic);
* `src/services/geminiService.ts` — `analyzeDeviceByPorts` (the remote
  API call is abstracted as an `Except` outcome);
* the application component (`App.tsx`) — `ipToSortable`, the conflict
  check, the classification update handlers and the scheduler's
  progress accounting.

JavaScript machine integers are modelled by `Int`/`Nat` with explicit
wrap-around at `2 ^ 32` (`toInt32` models `ToInt32` as used by `<<`,
`&`, `|`, `~`; `toUint32` models `>>> 0`).  JavaScript string `split`
with a one-character separator is modelled at the character-list level
by `splitOnChar`.
-/

set_option maxHeartbeats 1000000
set_option maxRecDepth 10000

namespace NetworkAnalyzer

/-- JavaScript `ToInt32`: reduce an integer modulo `2^32` into
`[-2^31, 2^31)`.  This is what `<<`, `&`, `|` apply to their operands
and produce as result. -/
def toInt32 (n : Int) : Int :=
  let m := n % 4294967296
  if m < 2147483648 then m else m - 4294967296

/-- JavaScript `ToUint32` (the `>>> 0` idiom): reduce an integer modulo
`2^32` into `[0, 2^32)`. -/
def toUint32 (n : Int) : Nat := (n % 4294967296).toNat

/-- Character-list model of JavaScript `String.prototype.split` with a
one-character separator (the source only splits on `"/"` and `"."`).
`split` on an empty string yields `[""]`, matching JavaScript. -/
def splitOnChar (sep : Char) : List Char → List (List Char)
  | [] => [[]]
  | c :: cs =>
    let r := splitOnChar sep cs
    if c = sep then [] :: r else (c :: r.headD []) :: r.tail

/-- `s.split(sep)` for a one-character separator, at the `String` level. -/
def jsSplit (sep : Char) (s : String) : List String :=
  (splitOnChar sep s.data).map String.mk

/-- Numeric value of a decimal digit character. -/
def digitVal (c : Char) : Nat := c.toNat - 48

/-- Value of a list of decimal digit characters, most significant first. -/
def decimalValue (ds : List Char) : Nat :=
  ds.foldl (fun a c => a * 10 + digitVal c) 0

/-- JavaScript `parseInt(s, 10)`: skip leading whitespace, read an
optional sign and then the longest leading run of decimal digits;
`none` models `NaN` (no digits found). -/
def jsParseInt (s : String) : Option Int :=
  let cs := s.data.dropWhile Char.isWhitespace
  let sr : Int × List Char :=
    match cs with
    | '-' :: t => (-1, t)
    | '+' :: t => (1, t)
    | t => (1, t)
  let ds := sr.2.takeWhile Char.isDigit
  if ds.isEmpty then none else some (sr.1 * (decimalValue ds : Int))

/-- One step of the `reduce` in `ipToLong` / `ipToSortable`:
`(acc << 8) + parseInt(part, 10)`.  The `.getD 0` branch is never
taken at the call sites (all parts are digit runs there). -/
def ipReduceStep (acc : Int) (part : String) : Int :=
  toInt32 (toInt32 acc * 256) + ((jsParseInt part).getD 0)

/-- `cidrUtils.ts` `ipToLong`: fold the dotted-quad octets into a
32-bit value, then `>>> 0` to make it unsigned. -/
def ipToLong (ip : String) : Nat :=
  toUint32 ((jsSplit '.' ip).foldl ipReduceStep 0)

/-- `App.tsx` `ipToSortable`: the same fold as `ipToLong` but without
the final `>>> 0`, so the result is a signed 32-bit value. -/
def ipToSortable (ip : String) : Int :=
  (jsSplit '.' ip).foldl ipReduceStep 0

/-- `cidrUtils.ts` `longToIp`.  For a 32-bit value the JavaScript
shift/mask expressions `long >>> 24`, `(long >> 16) & 255`,
`(long >> 8) & 255`, `long & 255` extract exactly the four bytes
computed here by division and remainder. -/
def longToIp (n : Nat) : String :=
  let m := n % 4294967296
  Nat.repr (m / 16777216) ++ "." ++ Nat.repr (m / 65536 % 256) ++ "." ++
    Nat.repr (m / 256 % 256) ++ "." ++ Nat.repr (m % 256)

/-- The regular expression `^\d{1,3}\.\d{1,3}\.\d{1,3}\.\d{1,3}$` from
`parseCidr`, decided structurally: exactly four dot-separated parts,
each a run of one to three decimal digits. -/
def isIpShape (ip : String) : Bool :=
  let parts := splitOnChar '.' ip.data
  parts.length == 4 &&
    parts.all (fun p => 1 ≤ p.length && p.length ≤ 3 && p.all Char.isDigit)

/-- Result record of `parseCidr`: `{ ipList, error? }`. -/
structure CidrResult where
  ipList : List String
  error : Option String
deriving DecidableEq, Repr

/-- The scan-size ceiling from `parseCidr` (`MAX_SCAN_SIZE`). -/
def MAX_SCAN_SIZE : Nat := 1024

/-- Lines 40–69 of `cidrUtils.ts` (host-range construction), factored
out of `parseCidr` after validation succeeded.  All quantities are the
unsigned 32-bit views of the source's int32 values: the int32 mask
`-1 << hostBits` is `2^32 - 2^hostBits`, its complement
`~maskLong >>> 0` is `2^hostBits - 1`, and the source's signed
comparisons and loop agree with the unsigned ones because network and
broadcast share their top bit (`mask ≥ 1`). -/
def cidrHostList (ipLong : Nat) (mask : Nat) : CidrResult :=
  let hostBits := 32 - mask
  let maskLong := 4294967296 - 2 ^ hostBits
  let networkLong := ipLong &&& maskLong
  let broadcastLong := networkLong ||| (2 ^ hostBits - 1)
  let firstHost := if 31 ≤ mask then networkLong else networkLong + 1
  let lastHost := if 31 ≤ mask then broadcastLong else broadcastLong - 1
  if mask = 32 then ⟨[longToIp ipLong], none⟩
  else if lastHost < firstHost then
    ⟨[], some "No scannable hosts in this CIDR range."⟩
  else
    ⟨(List.range (lastHost + 1 - firstHost)).map (fun k => longToIp (firstHost + k)),
      none⟩

/-- `cidrUtils.ts` `parseCidr`.  JavaScript truthiness of the two
destructured split results is: a missing (`undefined`) part or an
empty string is falsy. -/
def parseCidr (cidr : String) : CidrResult :=
  match jsSplit '/' cidr with
  | ip :: maskStr :: _ =>
    if ip = "" ∨ maskStr = "" then
      ⟨[], some "Invalid CIDR format. Expected format: X.X.X.X/Y"⟩
    else if isIpShape ip = false then
      ⟨[], some "Invalid IP address format in CIDR."⟩
    else
      match jsParseInt maskStr with
      | none => ⟨[], some "Invalid CIDR mask. Must be between 1 and 32."⟩
      | some mask =>
        if mask < 1 ∨ 32 < mask then
          ⟨[], some "Invalid CIDR mask. Must be between 1 and 32."⟩
        else if MAX_SCAN_SIZE < 2 ^ (32 - mask.toNat) then
          ⟨[], some ("Network size is too large (" ++
            Nat.repr (2 ^ (32 - mask.toNat)) ++ " addresses). Maximum allowed is " ++
            Nat.repr MAX_SCAN_SIZE ++ " (a /22 network).")⟩
        else cidrHostList (ipToLong ip) mask.toNat
  | _ => ⟨[], some "Invalid CIDR format. Expected format: X.X.X.X/Y"⟩

/-! ### `src/services/networkService.ts`

`checkPort` and `pingPort` open WebSockets; their outcomes are
abstracted: a probe-outcome function `probeOpen : Nat → Bool` for
`scanIp` (per-port result of `checkPort`), and a list of
`PingOutcome`s for `checkStability` (per-ping result of `pingPort`).
-/

/-- `COMMON_PORTS` from `networkService.ts`. -/
def COMMON_PORTS : List Nat :=
  [21, 22, 23, 25, 53, 80, 110, 143, 443, 445, 993, 995, 1433, 1521,
   3306, 3389, 5432, 5900, 6379, 8000, 8080, 8443]

/-- The `status` field of a `Device`. -/
inductive DeviceStatus where
  | Online
  | Offline
deriving DecidableEq, Repr

/-- The `Pick<Device, 'ip' | 'status' | 'openPorts'>` result of `scanIp`. -/
structure ScanOutcome where
  ip : String
  status : DeviceStatus
  openPorts : List Nat
deriving DecidableEq, Repr

/-- The Stage-1 discovery port set of `scanIp`. -/
def discoveryPorts : List Nat := [80, 443, 22, 445, 8080, 3389, 5900]

/-- `networkService.ts` `scanIp`: Stage-1 discovery probes, early exit
to `Offline` when none are open, otherwise Stage-2 over the remaining
ports, merged and sorted ascending (`sort((a, b) => a - b)` modelled
by a stable merge sort on `≤`). -/
def scanIp (ip : String) (ports : List Nat) (probeOpen : Nat → Bool) : ScanOutcome :=
  let openDiscoveryPorts := discoveryPorts.filter probeOpen
  if openDiscoveryPorts.isEmpty then ⟨ip, .Offline, []⟩
  else
    let remainingPorts := ports.filter (fun p => !(discoveryPorts.contains p))
    let openFullScanPorts := remainingPorts.filter probeOpen
    let allOpenPorts :=
      (openDiscoveryPorts ++ openFullScanPorts).mergeSort (fun a b => decide (a ≤ b))
    ⟨ip, .Online, allOpenPorts⟩

/-- The ports for which `scanIp` calls `checkPort`, in issue order:
the discovery set always, the remaining ports only when Stage 1 found
an open port. -/
def scanIpProbes (ports : List Nat) (probeOpen : Nat → Bool) : List Nat :=
  if (discoveryPorts.filter probeOpen).isEmpty then discoveryPorts
  else discoveryPorts ++ ports.filter (fun p => !(discoveryPorts.contains p))

/-- Outcome of one `pingPort` call: `status` (`true` = `'open'`) and
`duration` (elapsed milliseconds; floats modelled by `ℚ`). -/
structure PingOutcome where
  status : Bool
  duration : ℚ
deriving DecidableEq, Repr

/-- The `StabilityResult` record.  The source's `jitter` field is
`Math.sqrt(variance)`; the square root is kept symbolic, so the record
stores the `variance` computed on line 137 of `networkService.ts`
(`jitter` is `Real.sqrt` of it — see the C5 theorem). -/
structure StabilityResult where
  successRate : Nat
  totalPings : Nat
  avgLatency : ℚ
  variance : ℚ
deriving DecidableEq, Repr

/-- `networkService.ts` `checkStability` on the resolved ping results
(the source awaits exactly `pings` promises, so `results.length` is
the `pings` parameter). -/
def checkStability (results : List PingOutcome) : StabilityResult :=
  let successfulPings := results.filter (fun r => r.status)
  let latencies := successfulPings.map (fun p => p.duration)
  if latencies.isEmpty then ⟨0, results.length, 0, 0⟩
  else
    let avgLatency := (latencies.foldl (· + ·) 0) / (latencies.length : ℚ)
    let variance :=
      ((latencies.map (fun l => (l - avgLatency) ^ 2)).foldl (· + ·) 0) /
        (latencies.length : ℚ)
    ⟨successfulPings.length, results.length, avgLatency, variance⟩

/-! ### `src/services/geminiService.ts` -/

/-- `PortService` from `types.ts`. -/
structure PortService where
  port : Nat
  serviceName : String
  description : String
deriving DecidableEq, Repr

/-- The `{ analysis, category, services }` record returned by
`analyzeDeviceByPorts`. -/
structure ClassifierResult where
  analysis : String
  category : String
  services : List PortService
deriving DecidableEq, Repr

/-- `defaultErrorResponse` from `geminiService.ts`. -/
def defaultErrorResponse : ClassifierResult :=
  ⟨"An error occurred while analyzing the device with AI. The API might be unavailable or the key may be invalid.",
   "Error", []⟩

/-- Fields of the JSON object parsed from the model response; `none`
models an absent key. -/
structure GenResponse where
  analysis : Option String
  category : Option String
  services : Option (List PortService)
deriving DecidableEq, Repr

/-- JavaScript `x || d` for a possibly-absent string field:
`undefined` and `""` are falsy. -/
def jsOrElse (x : Option String) (d : String) : String :=
  match x with
  | none => d
  | some s => if s = "" then d else s

/-- `geminiService.ts` `analyzeDeviceByPorts`.  `apiKeyPresent` models
`API_KEY` being set; `apiOutcome` models the awaited API call plus
`JSON.parse` (`.error` = the try block threw, caught by the internal
`catch` which returns `defaultErrorResponse`).  Note the function
always resolves — it never rejects its promise. -/
def analyzeDeviceByPorts (apiKeyPresent : Bool) (openPorts : List Nat)
    (apiOutcome : Except Unit GenResponse) : ClassifierResult :=
  if !apiKeyPresent then
    ⟨"Error: Gemini API key is not configured.", "Error", []⟩
  else if openPorts.isEmpty then
    ⟨"No open ports detected to analyze.", "Unknown", []⟩
  else
    match apiOutcome with
    | .error _ => defaultErrorResponse
    | .ok r =>
      ⟨jsOrElse r.analysis "AI analysis was incomplete.",
       jsOrElse r.category "Unknown",
       r.services.getD []⟩

/-! ### `App.tsx` (src/unnamed/part_000, first document): conflict
detector, device collection and scheduler progress accounting -/

/-- The `conflict` field payload on a `Device`. -/
structure Conflict where
  previousCategory : String
deriving DecidableEq, Repr

/-- `Device` from `types.ts` (optional `services` defaults to `[]` as
the application always supplies it). -/
structure Device where
  ip : String
  status : DeviceStatus
  openPorts : List Nat
  analysis : String
  isAnalyzing : Bool
  category : String
  services : List PortService
  conflict : Option Conflict
deriving DecidableEq, Repr

/-- `App.tsx` `getCategoryGroup`.  `cat.toLowerCase()` is modelled at
the character level (`Char.toLower` lowercases the ASCII range, which
covers every category string compared here). -/
def getCategoryGroup (cat : String) : Option String :=
  let lowerCat := String.mk (cat.data.map Char.toLower)
  if lowerCat ∈ ["server", "workstation", "mobile device"] then some "Computing"
  else if lowerCat ∈ ["router", "nas"] then some "Networking"
  else if lowerCat ∈ ["printer"] then some "Peripheral"
  else if lowerCat ∈ ["iot device"] then some "IoT"
  else none

/-- The conflict decision of `App.tsx` `handleStartScan` (lines 77–88):
`if (oldDevice && oldDevice.category && category && oldDevice.category
!== category)` guards the group comparison (string truthiness: the
empty string is falsy), and a conflict is recorded when
`oldGroup !== newGroup`. -/
def detectConflict (oldDevice : Option Device) (category : String) : Option Conflict :=
  match oldDevice with
  | none => none
  | some old =>
    if old.category ≠ "" ∧ category ≠ "" ∧ old.category ≠ category then
      if getCategoryGroup old.category ≠ getCategoryGroup category then
        some ⟨old.category⟩
      else none
    else none

/-- The `newDevice` built in `processIp` when a host is online. -/
def mkNewDevice (scanResult : ScanOutcome) : Device :=
  ⟨scanResult.ip, scanResult.status, scanResult.openPorts,
   "Analyzing with AI...", true, "Analyzing...", [], none⟩

/-- Device insertion in `processIp`:
`setDevices(prev => [...prev, newDevice].sort((a, b) =>
ipToSortable(a.ip) - ipToSortable(b.ip)))` — append then stable sort
ascending by `ipToSortable`. -/
def insertDevice (devices : List Device) (newDevice : Device) : List Device :=
  (devices ++ [newDevice]).mergeSort
    (fun a b => decide (ipToSortable a.ip ≤ ipToSortable b.ip))

/-- The successful-classification update (lines 90–92): rewrite the
device whose `ip` matches with the classifier result and the computed
conflict, clearing `isAnalyzing`. -/
def applyClassification (devices : List Device) (ip : String)
    (r : ClassifierResult) (conflict : Option Conflict) : List Device :=
  devices.map (fun d =>
    if d.ip = ip then
      { d with analysis := r.analysis, category := r.category,
               services := r.services, isAnalyzing := false, conflict := conflict }
    else d)

/-- The classification-failure update (lines 95–97, the `catch`
branch): same shape with the fixed error strings; `conflict` is left
untouched. -/
def applyClassificationFailure (devices : List Device) (ip : String) : List Device :=
  devices.map (fun d =>
    if d.ip = ip then
      { d with analysis := "AI analysis failed.", category := "Error",
               services := [], isAnalyzing := false }
    else d)

/-- The `scanProgress` state. -/
structure ScanProgress where
  current : Nat
  total : Nat
  currentIp : String
  found : Nat
deriving DecidableEq, Repr

/-- How one address's processing ended: the `scanIp` call resolved
(with the host online or not) or threw. -/
inductive AddressOutcome where
  | ok (online : Bool)
  | threw
deriving DecidableEq, Repr

/-- The `deviceFound` flag of `processIp`: set only when the scan
resolved and reported `Online`; a thrown scan leaves it `false`. -/
def deviceFound : AddressOutcome → Bool
  | .ok b => b
  | .threw => false

/-- The `finally` block of `processIp`: increment `current` by one and
`found` by one exactly when `deviceFound`.  It runs exactly once per
address, whether the scan succeeded or threw. -/
def completeAddress (p : ScanProgress) (o : AddressOutcome) : ScanProgress :=
  { p with current := p.current + 1,
           found := p.found + (if deviceFound o then 1 else 0) }

/-- Initial progress state set by `handleStartScan`. -/
def initProgress (total : Nat) : ScanProgress := ⟨0, total, "", 0⟩

/-- The scheduler's progress accounting over the per-address
completion events, folded in their (nondeterministic) completion
order.  Each address contributes exactly one event: the worker pool
pulls each address from the queue once, and `processIp`'s `finally`
block runs once per call; the `setScanProgress` functional updates are
applied serially by the state container. -/
def runScheduler (events : List AddressOutcome) (total : Nat) : ScanProgress :=
  events.foldl completeAddress (initProgress total)

/-- The mutations `handleStartScan` applies to the device collection
during a scan: insertion of a freshly discovered online device, and
the two classification updates. -/
inductive ScanOp where
  | insert (d : Device)
  | classified (ip : String) (r : ClassifierResult) (conflict : Option Conflict)
  | failed (ip : String)
deriving DecidableEq

/-- Apply one device-collection mutation. -/
def applyScanOp (devices : List Device) : ScanOp → List Device
  | .insert d => insertDevice devices d
  | .classified ip r c => applyClassification devices ip r c
  | .failed ip => applyClassificationFailure devices ip

/-- The device collection after a sequence of mutations, starting from
the empty collection set by `handleStartScan`. -/
def runScanOps (ops : List ScanOp) : List Device :=
  ops.foldl applyScanOp []

/-- Spec-side abbreviation (not from the source): the numeric value of
the first host `parseCidr` emits for input value `a` and mask `m`. -/
def hostStart (a m : Nat) : Nat :=
  if m = 32 then a
  else if m = 31 then 2 ^ (32 - m) * (a / 2 ^ (32 - m))
  else 2 ^ (32 - m) * (a / 2 ^ (32 - m)) + 1

/-- Spec-side abbreviation (not from the source): the number of hosts
`parseCidr` emits for mask `m`. -/
def hostLen (m : Nat) : Nat :=
  if m = 32 then 1 else if m = 31 then 2 else 2 ^ (32 - m) - 2

/-! ## Helper lemmas: JavaScript 32-bit arithmetic -/

theorem toInt32_eq (n : Int) (h0 : 0 ≤ n) (h : n < 4294967296) :
    toInt32 n = if n < 2147483648 then n else n - 4294967296 := by
  show (if n % 4294967296 < 2147483648 then n % 4294967296
        else n % 4294967296 - 4294967296) = _
  rw [Int.emod_eq_of_lt h0 h]

theorem toInt32_small (n : Int) (h0 : 0 ≤ n) (h : n < 2147483648) :
    toInt32 n = n := by
  rw [toInt32_eq n h0 (by omega), if_pos h]

theorem toUint32_toInt32 (n : Nat) (h : n < 4294967296) :
    toUint32 (toInt32 (n : Int)) = n := by
  rw [toInt32_eq _ (by omega) (by omega)]
  unfold toUint32
  split <;> omega

/-! ## Helper lemmas: character-level split -/

theorem splitOnChar_cons (sep c : Char) (cs : List Char) :
    splitOnChar sep (c :: cs) =
      if c = sep then [] :: splitOnChar sep cs
      else (c :: (splitOnChar sep cs).headD []) :: (splitOnChar sep cs).tail := rfl

theorem splitOnChar_ne_nil (sep : Char) (l : List Char) :
    splitOnChar sep l ≠ [] := by
  cases l with
  | nil => simp [splitOnChar]
  | cons c cs =>
    rw [splitOnChar_cons]
    split <;> simp

theorem splitOnChar_of_not_mem (sep : Char) (l : List Char) (h : sep ∉ l) :
    splitOnChar sep l = [l] := by
  induction l with
  | nil => rfl
  | cons c cs ih =>
    have hc : ¬c = sep := by
      intro hc; exact h (hc ▸ List.mem_cons_self c cs)
    have hcs : sep ∉ cs := fun hm => h (List.mem_cons_of_mem c hm)
    rw [splitOnChar_cons, ih hcs]
    simp [hc]

theorem splitOnChar_append (sep : Char) (a b : List Char) (h : sep ∉ a) :
    splitOnChar sep (a ++ sep :: b) = a :: splitOnChar sep b := by
  induction a with
  | nil =>
    rw [List.nil_append, splitOnChar_cons]
    simp
  | cons c cs ih =>
    have hc : ¬c = sep := by
      intro hc; exact h (hc ▸ List.mem_cons_self c cs)
    have hcs : sep ∉ cs := fun hm => h (List.mem_cons_of_mem c hm)
    rw [List.cons_append, splitOnChar_cons, ih hcs]
    simp [hc]

/-! ## Helper lemmas: decimal representations of bytes -/

theorem byte_repr_facts : ∀ b : Fin 256,
    ('.' ∉ (Nat.repr b.1).data) ∧ jsParseInt (Nat.repr b.1) = some (b.1 : Int) := by
  decide

theorem byte_repr_not_dot (b : Nat) (hb : b < 256) : '.' ∉ (Nat.repr b).data :=
  (byte_repr_facts ⟨b, hb⟩).1

theorem byte_repr_parse (b : Nat) (hb : b < 256) :
    jsParseInt (Nat.repr b) = some (b : Int) :=
  (byte_repr_facts ⟨b, hb⟩).2

/-! ## Helper lemmas: `longToIp` and the octet folds -/

theorem string_mk_data (s : String) : String.mk s.data = s := rfl

theorem jsSplit_longToIp (n : Nat) (h : n < 4294967296) :
    jsSplit '.' (longToIp n) =
      [Nat.repr (n / 16777216), Nat.repr (n / 65536 % 256),
       Nat.repr (n / 256 % 256), Nat.repr (n % 256)] := by
  have hm : n % 4294967296 = n := Nat.mod_eq_of_lt h
  have h3 : n / 16777216 < 256 := by omega
  have h2 : n / 65536 % 256 < 256 := Nat.mod_lt _ (by norm_num)
  have h1 : n / 256 % 256 < 256 := Nat.mod_lt _ (by norm_num)
  have h0 : n % 256 < 256 := Nat.mod_lt _ (by norm_num)
  unfold jsSplit longToIp
  simp only [hm]
  have hdata : (Nat.repr (n / 16777216) ++ "." ++ Nat.repr (n / 65536 % 256) ++ "." ++
      Nat.repr (n / 256 % 256) ++ "." ++ Nat.repr (n % 256)).data =
      (Nat.repr (n / 16777216)).data ++ '.' ::
        ((Nat.repr (n / 65536 % 256)).data ++ '.' ::
          ((Nat.repr (n / 256 % 256)).data ++ '.' :: (Nat.repr (n % 256)).data)) := by
    simp [String.data_append]
  rw [hdata,
    splitOnChar_append '.' _ _ (byte_repr_not_dot _ h3),
    splitOnChar_append '.' _ _ (byte_repr_not_dot _ h2),
    splitOnChar_append '.' _ _ (byte_repr_not_dot _ h1),
    splitOnChar_of_not_mem '.' _ (byte_repr_not_dot _ h0)]
  simp [string_mk_data]

theorem ipReduceStep_repr (acc : Int) (b : Nat) (hb : b < 256)
    (ha0 : 0 ≤ acc) (ha : acc < 8388608) :
    ipReduceStep acc (Nat.repr b) = acc * 256 + b := by
  unfold ipReduceStep
  rw [byte_repr_parse b hb, Option.getD_some,
    toInt32_small acc ha0 (by omega),
    toInt32_small (acc * 256) (by omega) (by omega)]

theorem ipReduceStep_repr_last (acc : Int) (b : Nat) (hb : b < 256)
    (ha0 : 0 ≤ acc) (ha : acc < 16777216) :
    ipReduceStep acc (Nat.repr b) = toInt32 (acc * 256 + b) := by
  unfold ipReduceStep
  rw [byte_repr_parse b hb, Option.getD_some,
    toInt32_small acc ha0 (by omega),
    toInt32_eq (acc * 256) (by omega) (by omega),
    toInt32_eq (acc * 256 + b) (by omega) (by omega)]
  split <;> split <;> omega

theorem foldl_ipReduceStep (b3 b2 b1 b0 : Nat)
    (h3 : b3 < 256) (h2 : b2 < 256) (h1 : b1 < 256) (h0 : b0 < 256) :
    [Nat.repr b3, Nat.repr b2, Nat.repr b1, Nat.repr b0].foldl ipReduceStep 0 =
      toInt32 ((((b3 * 256 + b2) * 256 + b1) * 256 + b0 : Nat) : Int) := by
  have s1 : ipReduceStep 0 (Nat.repr b3) = (b3 : Int) := by
    rw [ipReduceStep_repr 0 b3 h3 le_rfl (by norm_num)]; ring
  have s2 : ipReduceStep (b3 : Int) (Nat.repr b2) = (b3 : Int) * 256 + b2 :=
    ipReduceStep_repr _ b2 h2 (by omega) (by omega)
  have s3 : ipReduceStep ((b3 : Int) * 256 + b2) (Nat.repr b1)
      = ((b3 : Int) * 256 + b2) * 256 + b1 :=
    ipReduceStep_repr _ b1 h1 (by omega) (by omega)
  have s4 : ipReduceStep (((b3 : Int) * 256 + b2) * 256 + b1) (Nat.repr b0)
      = toInt32 ((((b3 : Int) * 256 + b2) * 256 + b1) * 256 + b0) :=
    ipReduceStep_repr_last _ b0 h0 (by omega) (by omega)
  have hcast : ((((b3 * 256 + b2) * 256 + b1) * 256 + b0 : Nat) : Int)
      = (((b3 : Int) * 256 + b2) * 256 + b1) * 256 + b0 := by
    push_cast
    ring
  rw [hcast]
  simp only [List.foldl, s1, s2, s3, s4]

theorem ipToSortable_longToIp (n : Nat) (h : n < 4294967296) :
    ipToSortable (longToIp n) = toInt32 (n : Int) := by
  unfold ipToSortable
  rw [jsSplit_longToIp n h,
    foldl_ipReduceStep _ _ _ _ (by omega) (Nat.mod_lt _ (by norm_num))
      (Nat.mod_lt _ (by norm_num)) (Nat.mod_lt _ (by norm_num))]
  congr 2
  omega

theorem ipToLong_longToIp (n : Nat) (h : n < 4294967296) :
    ipToLong (longToIp n) = n := by
  unfold ipToLong
  rw [jsSplit_longToIp n h,
    foldl_ipReduceStep _ _ _ _ (by omega) (Nat.mod_lt _ (by norm_num))
      (Nat.mod_lt _ (by norm_num)) (Nat.mod_lt _ (by norm_num))]
  rw [show ((((n / 16777216) * 256 + n / 65536 % 256) * 256 + n / 256 % 256) * 256
      + n % 256 : Nat) = n by omega]
  exact toUint32_toInt32 n h

theorem toUint32_lt (n : Int) : toUint32 n < 4294967296 := by
  unfold toUint32
  have h1 : 0 ≤ n % 4294967296 := Int.emod_nonneg n (by norm_num)
  have h2 : n % 4294967296 < 4294967296 := Int.emod_lt_of_pos n (by norm_num)
  omega

/-! ## Helper lemmas: bit operations on 32-bit blocks -/

theorem testBit_div_pow (x j i : Nat) :
    (x / 2 ^ j).testBit i = x.testBit (j + i) := by
  rw [← Nat.shiftRight_eq_div_pow, Nat.testBit_shiftRight]

theorem testBit_mul_pow (x j i : Nat) :
    (2 ^ j * x).testBit i = (decide (j ≤ i) && x.testBit (i - j)) := by
  rw [mul_comm, ← Nat.shiftLeft_eq, Nat.testBit_shiftLeft]

theorem testBit_high_false (a i : Nat) (ha : a < 4294967296) (hi : 32 ≤ i) :
    a.testBit i = false := by
  apply Nat.testBit_lt_two_pow
  calc a < 4294967296 := ha
  _ = 2 ^ 32 := by norm_num
  _ ≤ 2 ^ i := Nat.pow_le_pow_right (by norm_num) hi

theorem land_mask (a h : Nat) (ha : a < 4294967296) (hh : h ≤ 32) :
    a &&& (4294967296 - 2 ^ h) = 2 ^ h * (a / 2 ^ h) := by
  have hsub : (4294967296 : Nat) - 2 ^ h = 2 ^ h * (2 ^ (32 - h) - 1) := by
    have hp : (2 : Nat) ^ h * 2 ^ (32 - h) = 4294967296 := by
      rw [← pow_add]
      rw [show h + (32 - h) = 32 by omega]
      norm_num
    rw [Nat.mul_sub, mul_one, hp]
  apply Nat.eq_of_testBit_eq
  intro i
  rw [Nat.testBit_land, hsub, testBit_mul_pow, testBit_mul_pow,
    Nat.testBit_two_pow_sub_one, testBit_div_pow]
  by_cases hi : h ≤ i
  · rw [show h + (i - h) = i by omega]
    by_cases hi32 : i < 32
    · simp [hi, show i - h < 32 - h by omega]
    · simp [testBit_high_false a i ha (by omega), show ¬(i - h < 32 - h) by omega]
  · simp [hi]

theorem lor_low (q h b : Nat) (hb : b < 2 ^ h) :
    2 ^ h * q ||| b = 2 ^ h * q + b := by
  apply Nat.eq_of_testBit_eq
  intro i
  rw [Nat.testBit_lor, testBit_mul_pow]
  by_cases hi : i < h
  · have hmod : (2 ^ h * q + b) % 2 ^ h = b := by
      rw [show 2 ^ h * q + b = b + q * 2 ^ h by ring,
        Nat.add_mul_mod_self_right, Nat.mod_eq_of_lt hb]
    have ht := Nat.testBit_mod_two_pow (2 ^ h * q + b) h i
    rw [hmod] at ht
    rw [ht]
    simp [hi, show ¬h ≤ i by omega]
  · have hbf : b.testBit i = false := by
      apply Nat.testBit_lt_two_pow
      exact lt_of_lt_of_le hb (Nat.pow_le_pow_right (by norm_num) (by omega))
    have hdiv : (2 ^ h * q + b) / 2 ^ h = q := by
      rw [Nat.mul_add_div (pow_pos (by norm_num : (0 : Nat) < 2) h)]
      rw [Nat.div_eq_of_lt hb, Nat.add_zero]
    have ht := testBit_div_pow (2 ^ h * q + b) h (i - h)
    rw [hdiv, show h + (i - h) = i by omega] at ht
    rw [hbf, ← ht]
    simp [show h ≤ i by omega]

/-! ## Helper lemmas: host list characterization -/

theorem hostStart_add_hostLen (a m : Nat) (ha : a < 4294967296)
    (h1 : 1 ≤ m) (h2 : m ≤ 32) :
    hostStart a m + hostLen m ≤ 4294967296 := by
  have hdivle : 2 ^ (32 - m) * (a / 2 ^ (32 - m)) ≤ a := Nat.mul_div_le a _
  have hpow1 : (1 : Nat) ≤ 2 ^ (32 - m) := Nat.one_le_two_pow
  have hstep : 2 ^ (32 - m) * (a / 2 ^ (32 - m)) + 2 ^ (32 - m) ≤ 4294967296 := by
    have hlt : a / 2 ^ (32 - m) < 2 ^ m := by
      apply Nat.div_lt_of_lt_mul
      calc a < 4294967296 := ha
      _ = 2 ^ (32 - m) * 2 ^ m := by
        rw [← pow_add, show 32 - m + m = 32 by omega]; norm_num
    have := Nat.mul_le_mul_left (2 ^ (32 - m)) (Nat.succ_le_of_lt hlt)
    calc 2 ^ (32 - m) * (a / 2 ^ (32 - m)) + 2 ^ (32 - m)
        = 2 ^ (32 - m) * (a / 2 ^ (32 - m) + 1) := by ring
    _ ≤ 2 ^ (32 - m) * 2 ^ m := this
    _ = 4294967296 := by rw [← pow_add, show 32 - m + m = 32 by omega]; norm_num
  unfold hostStart hostLen
  by_cases hm32 : m = 32
  · simp [hm32]; omega
  · by_cases hm31 : m = 31
    · simp [hm32, hm31] at hstep ⊢
      omega
    · simp only [if_neg hm32, if_neg hm31]
      omega

theorem cidrHostList_eq (a m : Nat) (ha : a < 4294967296)
    (h1 : 1 ≤ m) (h2 : m ≤ 32) :
    cidrHostList a m =
      ⟨(List.range (hostLen m)).map (fun k => longToIp (hostStart a m + k)), none⟩ := by
  have hpow1 : (1 : Nat) ≤ 2 ^ (32 - m) := Nat.one_le_two_pow
  simp only [cidrHostList]
  rw [land_mask a (32 - m) ha (by omega)]
  rw [lor_low (a / 2 ^ (32 - m)) (32 - m) (2 ^ (32 - m) - 1) (by omega)]
  unfold hostStart hostLen
  by_cases hm32 : m = 32
  · subst hm32
    norm_num
    rw [show List.range 1 = [0] from rfl]
    simp
  · simp only [if_neg hm32]
    by_cases hm31 : m = 31
    · subst hm31
      simp only [if_pos rfl, if_pos (le_refl 31)]
      rw [if_neg (by omega : ¬(2 ^ (32 - 31) * (a / 2 ^ (32 - 31)) +
        (2 ^ (32 - 31) - 1) < 2 ^ (32 - 31) * (a / 2 ^ (32 - 31))))]
      rw [show 2 ^ (32 - 31) * (a / 2 ^ (32 - 31)) + (2 ^ (32 - 31) - 1) + 1 -
        2 ^ (32 - 31) * (a / 2 ^ (32 - 31)) = 2 from by omega]
      simp
    · have hm30 : m ≤ 30 := by omega
      have hpow4 : (4 : Nat) ≤ 2 ^ (32 - m) := by
        calc (4 : Nat) = 2 ^ 2 := by norm_num
        _ ≤ 2 ^ (32 - m) := Nat.pow_le_pow_right (by norm_num) (by omega)
      simp only [if_neg hm31, if_neg (by omega : ¬31 ≤ m)]
      rw [if_neg (by omega : ¬(2 ^ (32 - m) * (a / 2 ^ (32 - m)) +
        (2 ^ (32 - m) - 1) - 1 < 2 ^ (32 - m) * (a / 2 ^ (32 - m)) + 1))]
      rw [show 2 ^ (32 - m) * (a / 2 ^ (32 - m)) + (2 ^ (32 - m) - 1) - 1 + 1 -
        (2 ^ (32 - m) * (a / 2 ^ (32 - m)) + 1) = 2 ^ (32 - m) - 2 from by omega]

/-- Inversion of a successful `parseCidr` run: a result without an
error pins the mask into `[1, 32]`, under the size ceiling, and the
result is the host-range construction on the parsed address. -/
theorem parseCidr_success (cidr ip maskStr : String) (rest : List String) (mask : Int)
    (hsplit : jsSplit '/' cidr = ip :: maskStr :: rest)
    (hmask : jsParseInt maskStr = some mask)
    (herr : (parseCidr cidr).error = none) :
    1 ≤ mask ∧ mask ≤ 32 ∧ 2 ^ (32 - mask.toNat) ≤ 1024 ∧
      parseCidr cidr = cidrHostList (ipToLong ip) mask.toNat := by
  simp only [parseCidr, hsplit, hmask] at herr ⊢
  by_cases c1 : ip = "" ∨ maskStr = ""
  · rw [if_pos c1] at herr
    simp at herr
  · rw [if_neg c1] at herr ⊢
    by_cases c2 : isIpShape ip = false
    · rw [if_pos c2] at herr
      simp at herr
    · rw [if_neg c2] at herr ⊢
      by_cases c3 : mask < 1 ∨ 32 < mask
      · rw [if_pos c3] at herr
        simp at herr
      · rw [if_neg c3] at herr ⊢
        by_cases c4 : MAX_SCAN_SIZE < 2 ^ (32 - mask.toNat)
        · rw [if_pos c4] at herr
          simp at herr
        · rw [if_neg c4]
          push_neg at c3
          simp only [MAX_SCAN_SIZE] at c4
          exact ⟨by omega, by omega, by omega, rfl⟩

/-- C1: every CIDR input that passes validation yields a host list of
length `2^(32-mask) - 2` for masks of at most 30, of length 2 for mask
31, and of length 1 for mask 32; and the list is strictly ascending by
the numeric (unsigned 32-bit, most-significant-octet-first) value of
the dotted quad, which is exactly what `ipToLong` computes. -/
theorem resolver_host_list_length_and_order
    (cidr ip maskStr : String) (rest : List String) (mask : Int)
    (hsplit : jsSplit '/' cidr = ip :: maskStr :: rest)
    (hmask : jsParseInt maskStr = some mask)
    (herr : (parseCidr cidr).error = none) :
    ((mask ≤ 30 → (parseCidr cidr).ipList.length = 2 ^ (32 - mask.toNat) - 2) ∧
     (mask = 31 → (parseCidr cidr).ipList.length = 2) ∧
     (mask = 32 → (parseCidr cidr).ipList.length = 1)) ∧
    ((parseCidr cidr).ipList.map ipToLong).Pairwise (· < ·) := by
  obtain ⟨hm1, hm2, _, heq⟩ :=
    parseCidr_success cidr ip maskStr rest mask hsplit hmask herr
  have ha : ipToLong ip < 4294967296 := toUint32_lt _
  have hmt1 : 1 ≤ mask.toNat := by omega
  have hmt2 : mask.toNat ≤ 32 := by omega
  rw [heq, cidrHostList_eq (ipToLong ip) mask.toNat ha hmt1 hmt2]
  have hlen : ∀ len start,
      ((List.range len).map (fun k => longToIp (start + k))).length = len := by
    intro len start
    rw [List.length_map, List.length_range]
  refine ⟨⟨?_, ?_, ?_⟩, ?_⟩
  · intro h30
    rw [hlen]
    unfold hostLen
    rw [if_neg (by omega : ¬mask.toNat = 32), if_neg (by omega : ¬mask.toNat = 31)]
  · intro h31
    rw [hlen]
    unfold hostLen
    rw [if_neg (by omega : ¬mask.toNat = 32), if_pos (by omega : mask.toNat = 31)]
  · intro h32
    rw [hlen]
    unfold hostLen
    rw [if_pos (by omega : mask.toNat = 32)]
  · have hbound := hostStart_add_hostLen (ipToLong ip) mask.toNat ha hmt1 hmt2
    rw [List.map_map, List.pairwise_map]
    apply List.Pairwise.imp_of_mem ?_ (List.pairwise_lt_range (hostLen mask.toNat))
    intro k1 k2 hk1 hk2 hlt
    rw [List.mem_range] at hk1 hk2
    show ipToLong (longToIp (hostStart (ipToLong ip) mask.toNat + k1)) <
      ipToLong (longToIp (hostStart (ipToLong ip) mask.toNat + k2))
    rw [ipToLong_longToIp _ (by omega), ipToLong_longToIp _ (by omega)]
    omega

/-- C1 witness: `"10.0.0.0/30"` parses without error, yields
`2^(32-30) - 2 = 2` hosts, strictly ascending. -/
theorem resolver_host_list_length_and_order_witness :
    (parseCidr "10.0.0.0/30").ipList.length = 2 ^ (32 - (30 : Int).toNat) - 2 ∧
    ((parseCidr "10.0.0.0/30").ipList.map ipToLong).Pairwise (· < ·) := by
  have h := resolver_host_list_length_and_order "10.0.0.0/30" "10.0.0.0" "30" []
    30 (by decide) (by decide) (by decide)
  exact ⟨h.1.1 (by norm_num), h.2⟩

/-- C4 counterexample: the input `"300.1.1.1/32"` contains the octet
`300`, whose parsed value exceeds 255, yet `parseCidr` accepts it
(no error) and resolves it to the int32-wrapped address `44.1.1.1`. -/
theorem resolver_octet_overflow_counterexample :
    jsParseInt "300" = some 300 ∧
    parseCidr "300.1.1.1/32" = ⟨["44.1.1.1"], none⟩ := by
  constructor
  · decide
  · decide

/-- C4 (amended): `parseCidr` returns an empty list with a descriptive
error (it is a total function, so it never throws) when the mask fails
to parse, the mask is 0 or 33 (more generally outside `[1, 32]`), the
address fails the `\d{1,3}` dotted-quad pattern (any non-numeric
octet), or a mask in `[1, 32]` implies more than 1024 addresses.  An
octet of at most three digits whose value exceeds 255 passes the
pattern and is NOT rejected (see the counterexample). -/
theorem resolver_validation_errors
    (cidr ip maskStr : String) (rest : List String)
    (hsplit : jsSplit '/' cidr = ip :: maskStr :: rest)
    (hbad : jsParseInt maskStr = none ∨ jsParseInt maskStr = some 0 ∨
      jsParseInt maskStr = some 33 ∨ isIpShape ip = false ∨
      (∃ mask : Int, jsParseInt maskStr = some mask ∧ 1 ≤ mask ∧ mask ≤ 32 ∧
        1024 < 2 ^ (32 - mask.toNat))) :
    (parseCidr cidr).ipList = [] ∧ (parseCidr cidr).error ≠ none := by
  simp only [parseCidr, hsplit]
  by_cases c1 : ip = "" ∨ maskStr = ""
  · rw [if_pos c1]
    simp
  · rw [if_neg c1]
    by_cases c2 : isIpShape ip = false
    · rw [if_pos c2]
      simp
    · rw [if_neg c2]
      rcases hbad with hb | hb | hb | hb | ⟨mask, hp, hm1, hm2, hbig⟩
      · simp only [hb]
        simp
      · simp only [hb]
        rw [if_pos (Or.inl (by norm_num : (0 : Int) < 1))]
        simp
      · simp only [hb]
        rw [if_pos (Or.inr (by norm_num : (32 : Int) < 33))]
        simp
      · exact absurd hb c2
      · simp only [hp]
        rw [if_neg (by omega : ¬(mask < 1 ∨ 32 < mask))]
        rw [if_pos (show MAX_SCAN_SIZE < 2 ^ (32 - mask.toNat) by
          simp only [MAX_SCAN_SIZE]; omega)]
        simp

/-- C4 witness: `"10.0.0.0/0"` (mask 0) is rejected with an error. -/
theorem resolver_validation_errors_witness :
    (parseCidr "10.0.0.0/0").ipList = [] ∧ (parseCidr "10.0.0.0/0").error ≠ none :=
  resolver_validation_errors "10.0.0.0/0" "10.0.0.0" "0" [] (by decide)
    (Or.inr (Or.inl (by decide)))

/-- C10: for a mask of at most 31 (so excluding the `/32` special
case, where the unmasked input address itself is emitted), `parseCidr`
masks the input address down to its network: two inputs with the same
mask whose addresses agree on the top `mask` bits (same value of
`value / 2^(32-mask)`) produce identical host lists. -/
theorem resolver_masks_input_address
    (cidr1 cidr2 ip1 ip2 maskStr1 maskStr2 : String)
    (rest1 rest2 : List String) (mask : Int)
    (hsplit1 : jsSplit '/' cidr1 = ip1 :: maskStr1 :: rest1)
    (hsplit2 : jsSplit '/' cidr2 = ip2 :: maskStr2 :: rest2)
    (hmask1 : jsParseInt maskStr1 = some mask)
    (hmask2 : jsParseInt maskStr2 = some mask)
    (hm31 : mask ≤ 31)
    (herr1 : (parseCidr cidr1).error = none)
    (herr2 : (parseCidr cidr2).error = none)
    (hagree : ipToLong ip1 / 2 ^ (32 - mask.toNat) =
      ipToLong ip2 / 2 ^ (32 - mask.toNat)) :
    (parseCidr cidr1).ipList = (parseCidr cidr2).ipList := by
  obtain ⟨hm1, hm2, _, heq1⟩ :=
    parseCidr_success cidr1 ip1 maskStr1 rest1 mask hsplit1 hmask1 herr1
  obtain ⟨_, _, _, heq2⟩ :=
    parseCidr_success cidr2 ip2 maskStr2 rest2 mask hsplit2 hmask2 herr2
  have ha1 : ipToLong ip1 < 4294967296 := toUint32_lt _
  have ha2 : ipToLong ip2 < 4294967296 := toUint32_lt _
  rw [heq1, heq2,
    cidrHostList_eq (ipToLong ip1) mask.toNat ha1 (by omega) (by omega),
    cidrHostList_eq (ipToLong ip2) mask.toNat ha2 (by omega) (by omega)]
  have hstart : hostStart (ipToLong ip1) mask.toNat =
      hostStart (ipToLong ip2) mask.toNat := by
    unfold hostStart
    rw [if_neg (by omega : ¬mask.toNat = 32), if_neg (by omega : ¬mask.toNat = 32),
      hagree]
  rw [hstart]

/-- C10 witness: `"10.0.0.0/30"` and `"10.0.0.1/30"` agree on the top
30 bits and resolve to the same host list. -/
theorem resolver_masks_input_address_witness :
    (parseCidr "10.0.0.0/30").ipList = (parseCidr "10.0.0.1/30").ipList :=
  resolver_masks_input_address "10.0.0.0/30" "10.0.0.1/30" "10.0.0.0" "10.0.0.1"
    "30" "30" [] [] 30 (by decide) (by decide) (by decide) (by decide)
    (by norm_num) (by decide) (by decide) (by decide)

/-- C2: for every port list and every combination of per-port probe
outcomes, `scanIp` reports `Offline` exactly when its open-port list
is empty (`openPorts = [] ↔ status = Offline`). -/
theorem scanner_offline_iff_no_open_ports
    (ip : String) (ports : List Nat) (probeOpen : Nat → Bool) :
    (scanIp ip ports probeOpen).status = DeviceStatus.Offline ↔
    (scanIp ip ports probeOpen).openPorts = [] := by
  simp only [scanIp]
  by_cases hd : (discoveryPorts.filter probeOpen).isEmpty
  · rw [if_pos hd]
    simp
  · rw [if_neg hd]
    constructor
    · intro h
      exact absurd h (by simp)
    · intro h
      exfalso
      have h1 : discoveryPorts.filter probeOpen ≠ [] := by
        intro he
        rw [he] at hd
        exact hd rfl
      have h2 := congrArg List.length h
      rw [List.length_mergeSort, List.length_append, List.length_nil] at h2
      exact h1 (List.length_eq_zero.mp (by omega))

/-- C2 witness: concrete instance with all probes closed. -/
theorem scanner_offline_iff_no_open_ports_witness :
    ((scanIp "10.0.0.1" COMMON_PORTS (fun _ => false)).status = DeviceStatus.Offline ↔
     (scanIp "10.0.0.1" COMMON_PORTS (fun _ => false)).openPorts = []) :=
  scanner_offline_iff_no_open_ports "10.0.0.1" COMMON_PORTS (fun _ => false)

/-- C6: when every Stage-1 discovery probe reports closed, `scanIp`
probes exactly the discovery set (no Stage-2 probes at all — the probe
count equals the discovery set's size) and reports the host `Offline`
with an empty port list. -/
theorem scanner_stage1_short_circuit
    (ip : String) (ports : List Nat) (probeOpen : Nat → Bool)
    (hclosed : ∀ p ∈ discoveryPorts, probeOpen p = false) :
    scanIpProbes ports probeOpen = discoveryPorts ∧
    (scanIpProbes ports probeOpen).length = discoveryPorts.length ∧
    scanIp ip ports probeOpen = ⟨ip, DeviceStatus.Offline, []⟩ := by
  have hfil : discoveryPorts.filter probeOpen = [] := by
    rw [List.filter_eq_nil_iff]
    intro p hp
    simp [hclosed p hp]
  refine ⟨?_, ?_, ?_⟩
  · unfold scanIpProbes
    rw [hfil]
    rfl
  · unfold scanIpProbes
    rw [hfil]
    rfl
  · unfold scanIp
    rw [hfil]
    rfl

/-- C6 witness: with all probes closed the probe trace is exactly the
seven discovery ports and the result is `Offline` with no ports. -/
theorem scanner_stage1_short_circuit_witness :
    scanIpProbes COMMON_PORTS (fun _ => false) = discoveryPorts ∧
    (scanIpProbes COMMON_PORTS (fun _ => false)).length = discoveryPorts.length ∧
    scanIp "192.168.1.1" COMMON_PORTS (fun _ => false) =
      ⟨"192.168.1.1", DeviceStatus.Offline, []⟩ :=
  scanner_stage1_short_circuit "192.168.1.1" COMMON_PORTS (fun _ => false)
    (fun _ _ => rfl)

/-- `checkStability` on a result set with no successful ping. -/
theorem checkStability_zero (results : List PingOutcome)
    (h : results.filter (fun r => r.status) = []) :
    checkStability results = ⟨0, results.length, 0, 0⟩ := by
  unfold checkStability
  rw [h]
  rfl

/-- `checkStability` on a result set with at least one successful
ping, with the folds expressed as sums. -/
theorem checkStability_pos (results : List PingOutcome)
    (h : results.filter (fun r => r.status) ≠ []) :
    checkStability results =
      ⟨(results.filter (fun r => r.status)).length, results.length,
       ((results.filter (fun r => r.status)).map (fun p => p.duration)).sum /
         ((results.filter (fun r => r.status)).length : ℚ),
       (((results.filter (fun r => r.status)).map (fun p => p.duration)).map
         (fun l => (l -
           ((results.filter (fun r => r.status)).map (fun p => p.duration)).sum /
             ((results.filter (fun r => r.status)).length : ℚ)) ^ 2)).sum /
         ((results.filter (fun r => r.status)).length : ℚ)⟩ := by
  unfold checkStability
  rw [if_neg (by simpa [List.isEmpty_iff] using h)]
  simp only [← List.sum_eq_foldl, List.length_map]

/-- C5: `checkStability` returns `successRate` equal to the number of
probes that resolved open; with zero opens it returns all-zero
statistics without dividing by zero; otherwise `avgLatency` is the
arithmetic mean of the successful probes' durations and the jitter —
`Math.sqrt` of the stored `variance` — is the population standard
deviation over the successful probes only. -/
theorem stability_statistics (results : List PingOutcome) :
    (checkStability results).successRate = (results.filter (fun r => r.status)).length ∧
    (checkStability results).totalPings = results.length ∧
    ((results.filter (fun r => r.status)).length = 0 →
      checkStability results = ⟨0, results.length, 0, 0⟩) ∧
    ((results.filter (fun r => r.status)).length ≠ 0 →
      (checkStability results).avgLatency =
        ((results.filter (fun r => r.status)).map (fun p => p.duration)).sum /
          ((results.filter (fun r => r.status)).length : ℚ) ∧
      (checkStability results).variance =
        (((results.filter (fun r => r.status)).map (fun p => p.duration)).map
          (fun l => (l - (checkStability results).avgLatency) ^ 2)).sum /
          ((results.filter (fun r => r.status)).length : ℚ) ∧
      Real.sqrt ((checkStability results).variance : ℝ) =
        Real.sqrt (((((results.filter (fun r => r.status)).map (fun p => p.duration)).map
          (fun l => (l - (checkStability results).avgLatency) ^ 2)).sum /
          ((results.filter (fun r => r.status)).length : ℚ) : ℚ) : ℝ)) := by
  by_cases h0 : (results.filter (fun r => r.status)).length = 0
  · have hnil : results.filter (fun r => r.status) = [] := List.length_eq_zero.mp h0
    rw [checkStability_zero results hnil]
    exact ⟨h0.symm, rfl, fun _ => rfl, fun hne => absurd h0 hne⟩
  · have hne : results.filter (fun r => r.status) ≠ [] := by
      intro he
      exact h0 (by rw [he]; rfl)
    rw [checkStability_pos results hne]
    exact ⟨rfl, rfl, fun hz => absurd hz h0, fun _ => ⟨rfl, rfl, rfl⟩⟩

/-- C5 witness: pings `[open 10ms, open 30ms, closed 50ms]` give
`successRate = 2`, mean `20`, variance `100`. -/
theorem stability_statistics_witness :
    (checkStability [⟨true, 10⟩, ⟨true, 30⟩, ⟨false, 50⟩]).successRate = 2 ∧
    (checkStability [⟨true, 10⟩, ⟨true, 30⟩, ⟨false, 50⟩]).avgLatency = 20 ∧
    (checkStability [⟨true, 10⟩, ⟨true, 30⟩, ⟨false, 50⟩]).variance = 100 := by
  have h := stability_statistics [⟨true, 10⟩, ⟨true, 30⟩, ⟨false, 50⟩]
  have h4 := h.2.2.2 (by decide)
  refine ⟨?_, ?_, ?_⟩
  · rw [h.1]
    decide
  · rw [h4.1]
    norm_num
  · rw [h4.2.1, h4.1]
    norm_num

/-- C3 counterexample: the previous category `"Gadget"` resolves to no
known group, the new category `"Server"` resolves to `Computing`, the
two differ as strings — and the code raises a conflict, although the
claim says no conflict is raised when either side's group is
unresolved. -/
theorem conflict_unknown_group_counterexample :
    getCategoryGroup "Gadget" = none ∧
    getCategoryGroup "Server" = some "Computing" ∧
    detectConflict
      (some ⟨"192.168.1.50", DeviceStatus.Online, [80], "x", false, "Gadget", [], none⟩)
      "Server" =
      some ⟨"Gadget"⟩ := by
  refine ⟨by decide, by decide, by decide⟩

/-- C3 (amended): a conflict is raised iff a previous device existed
at the IP, both the previous and current categories are non-empty,
they differ as strings, and their resolved groups differ — where an
unknown category resolves to the `none` group and `none` counts as a
group value, so a change between an unknown-group category and a
known-group one DOES raise a conflict; only two categories resolving
to the same group (both known, or both unknown) do not.  When raised,
the conflict records the previous category. -/
theorem conflict_raised_iff (oldDevice : Option Device) (category : String) :
    (detectConflict oldDevice category ≠ none ↔
      ∃ d, oldDevice = some d ∧ d.category ≠ "" ∧ category ≠ "" ∧
        d.category ≠ category ∧
        getCategoryGroup d.category ≠ getCategoryGroup category) ∧
    (∀ d, oldDevice = some d → detectConflict oldDevice category ≠ none →
      detectConflict oldDevice category = some ⟨d.category⟩) := by
  constructor
  · constructor
    · intro hne
      cases oldDevice with
      | none => simp [detectConflict] at hne
      | some old =>
        refine ⟨old, rfl, ?_⟩
        simp only [detectConflict] at hne
        by_cases hc : old.category ≠ "" ∧ category ≠ "" ∧ old.category ≠ category
        · rw [if_pos hc] at hne
          by_cases hg : getCategoryGroup old.category ≠ getCategoryGroup category
          · exact ⟨hc.1, hc.2.1, hc.2.2, hg⟩
          · rw [if_neg hg] at hne
            exact absurd rfl hne
        · rw [if_neg hc] at hne
          exact absurd rfl hne
    · rintro ⟨d, rfl, hc1, hc2, hc3, hg⟩
      simp only [detectConflict]
      rw [if_pos ⟨hc1, hc2, hc3⟩, if_pos hg]
      simp
  · intro d hd hne
    subst hd
    simp only [detectConflict] at hne ⊢
    by_cases hc : d.category ≠ "" ∧ category ≠ "" ∧ d.category ≠ category
    · rw [if_pos hc] at hne ⊢
      by_cases hg : getCategoryGroup d.category ≠ getCategoryGroup category
      · rw [if_pos hg]
      · rw [if_neg hg] at hne
        exact absurd rfl hne
    · rw [if_neg hc] at hne
      exact absurd rfl hne

/-- C3 witness: `Server → Printer` (Computing vs Peripheral) raises a
conflict recording `"Server"`. -/
theorem conflict_raised_iff_witness :
    detectConflict
      (some ⟨"10.0.0.9", DeviceStatus.Online, [80], "x", false, "Server", [], none⟩)
      "Printer" =
      some ⟨"Server"⟩ := by
  have h := conflict_raised_iff
    (some ⟨"10.0.0.9", DeviceStatus.Online, [80], "x", false, "Server", [], none⟩)
    "Printer"
  exact h.2 _ rfl (h.1.mpr ⟨_, rfl, by decide, by decide, by decide, by decide⟩)

/-- Folding completion events adds the event count to `current`, the
found-event count to `found`, and leaves `total` unchanged. -/
theorem runScheduler_foldl (events : List AddressOutcome) (p : ScanProgress) :
    (events.foldl completeAddress p).current = p.current + events.length ∧
    (events.foldl completeAddress p).found =
      p.found + (events.filter deviceFound).length ∧
    (events.foldl completeAddress p).total = p.total := by
  induction events generalizing p with
  | nil => simp
  | cons e es ih =>
    simp only [List.foldl_cons]
    have h := ih (completeAddress p e)
    refine ⟨?_, ?_, ?_⟩
    · rw [h.1]
      simp only [completeAddress, List.length_cons]
      omega
    · rw [h.2.1, List.filter_cons]
      cases hde : deviceFound e
      · simp [completeAddress, hde]
      · simp only [completeAddress, hde, if_pos, List.length_cons, ite_true]
        omega
    · rw [h.2.2]
      rfl

/-- C7: over any list of per-address completion events (one per
address — `processIp`'s `finally` block runs exactly once per address,
whether the scan resolved or threw), `completed` equals the number of
events processed so far, so it rises from 0 to exactly the address
count and never exceeds it; `found` counts exactly the events whose
host was online, so it never exceeds `completed`. -/
theorem scheduler_progress_counters (outcomes : List AddressOutcome) (total : Nat)
    (hT : outcomes.length = total) :
    (∀ k, k ≤ total →
      (runScheduler (outcomes.take k) total).current = k ∧
      (runScheduler (outcomes.take k) total).found =
        ((outcomes.take k).filter deviceFound).length ∧
      (runScheduler (outcomes.take k) total).found ≤ k) ∧
    (runScheduler outcomes total).current = total ∧
    (runScheduler outcomes total).found ≤ total := by
  have hbase : ∀ l : List AddressOutcome,
      (runScheduler l total).current = l.length ∧
      (runScheduler l total).found = (l.filter deviceFound).length := by
    intro l
    have h := runScheduler_foldl l (initProgress total)
    simp only [runScheduler]
    refine ⟨?_, ?_⟩
    · rw [h.1]
      simp [initProgress]
    · rw [h.2.1]
      simp [initProgress]
  refine ⟨?_, ?_, ?_⟩
  · intro k hk
    have h := hbase (outcomes.take k)
    have hlen : (outcomes.take k).length = k := by
      rw [List.length_take]
      omega
    refine ⟨by rw [h.1, hlen], h.2, ?_⟩
    rw [h.2]
    calc ((outcomes.take k).filter deviceFound).length
        ≤ (outcomes.take k).length := List.length_filter_le _ _
    _ = k := hlen
  · rw [(hbase outcomes).1, hT]
  · rw [(hbase outcomes).2]
    calc (outcomes.filter deviceFound).length
        ≤ outcomes.length := List.length_filter_le _ _
    _ = total := hT

/-- C7 witness: three addresses — one online, one thrown, one offline
— give `completed = 3` and `found ≤ 3`. -/
theorem scheduler_progress_counters_witness :
    (runScheduler [AddressOutcome.ok true, AddressOutcome.threw,
      AddressOutcome.ok false] 3).current = 3 ∧
    (runScheduler [AddressOutcome.ok true, AddressOutcome.threw,
      AddressOutcome.ok false] 3).found ≤ 3 := by
  have h := scheduler_progress_counters
    [AddressOutcome.ok true, AddressOutcome.threw, AddressOutcome.ok false] 3
    (by decide)
  exact ⟨h.2.1, h.2.2⟩

/-- C8 counterexample: with missing credentials the classifier
resolves (it does not reject), returning category `"Error"` with an
analysis string different from `"AI analysis failed."`; the scheduler
therefore takes the success path and the device's analysis is
`"Error: Gemini API key is not configured."`, not
`"AI analysis failed."` as the claim states. -/
theorem classifier_missing_key_counterexample :
    analyzeDeviceByPorts false [80] (Except.ok ⟨none, none, none⟩) =
      ⟨"Error: Gemini API key is not configured.", "Error", []⟩ ∧
    (analyzeDeviceByPorts false [80] (Except.ok ⟨none, none, none⟩)).analysis ≠
      "AI analysis failed." := by
  refine ⟨rfl, by decide⟩

/-- C8 (amended): when the classifier promise rejects, the catch
branch keeps every device in the results (same length; devices at
other IPs unchanged and still present) and rewrites the device at the
scanned IP with `category = "Error"`, `analysis = "AI analysis
failed."`, `services = []`, `isAnalyzing = false`.  When credentials
are missing, `analyzeDeviceByPorts` instead resolves with
`category = "Error"`, `services = []` and the analysis string
`"Error: Gemini API key is not configured."` — the success path then
writes those fields, so the host is kept with an `Error` category in
both cases, but the analysis text differs from the claim's. -/
theorem classifier_failure_handling
    (devices : List Device) (ip : String) (openPorts : List Nat)
    (apiOutcome : Except Unit GenResponse) :
    (applyClassificationFailure devices ip).length = devices.length ∧
    (∀ d ∈ devices, d.ip ≠ ip → d ∈ applyClassificationFailure devices ip) ∧
    (∀ d ∈ devices, d.ip = ip →
      { d with analysis := "AI analysis failed.", category := "Error",
               services := [], isAnalyzing := false } ∈
        applyClassificationFailure devices ip) ∧
    (∀ d ∈ applyClassificationFailure devices ip, d.ip = ip →
      d.category = "Error" ∧ d.analysis = "AI analysis failed." ∧
      d.services = [] ∧ d.isAnalyzing = false) ∧
    analyzeDeviceByPorts false openPorts apiOutcome =
      ⟨"Error: Gemini API key is not configured.", "Error", []⟩ := by
  refine ⟨List.length_map _ _, ?_, ?_, ?_, rfl⟩
  · intro d hd hip
    unfold applyClassificationFailure
    rw [List.mem_map]
    exact ⟨d, hd, by simp [hip]⟩
  · intro d hd hip
    unfold applyClassificationFailure
    rw [List.mem_map]
    refine ⟨d, hd, ?_⟩
    simp only [if_pos hip]
  · intro d hd hip
    unfold applyClassificationFailure at hd
    obtain ⟨d0, hd0, heq⟩ := List.mem_map.mp hd
    by_cases h0 : d0.ip = ip
    · simp only [if_pos h0] at heq
      rw [← heq]
      exact ⟨rfl, rfl, rfl, rfl⟩
    · simp only [if_neg h0] at heq
      rw [← heq] at hip
      exact absurd hip h0

/-- C8 witness: a one-device collection at the scanned IP after the
catch branch contains exactly the error-marked device. -/
theorem classifier_failure_handling_witness :
    ({ ip := "10.0.0.5", status := DeviceStatus.Online, openPorts := [80],
       analysis := "AI analysis failed.", isAnalyzing := false,
       category := "Error", services := [], conflict := none } : Device) ∈
      applyClassificationFailure
        [⟨"10.0.0.5", DeviceStatus.Online, [80], "Analyzing with AI...", true,
          "Analyzing...", [], none⟩] "10.0.0.5" := by
  have h := classifier_failure_handling
    [⟨"10.0.0.5", DeviceStatus.Online, [80], "Analyzing with AI...", true,
      "Analyzing...", [], none⟩] "10.0.0.5" [80] (Except.error ())
  exact h.2.2.1
    ⟨"10.0.0.5", DeviceStatus.Online, [80], "Analyzing with AI...", true,
      "Analyzing...", [], none⟩ (List.mem_singleton.mpr rfl) rfl

/-! ## Helper lemmas: signed comparison agrees with unsigned inside a
CIDR block -/

theorem toInt32_le_iff (n1 n2 : Nat) (h1 : n1 < 4294967296) (h2 : n2 < 4294967296)
    (hs : n1 < 2147483648 ↔ n2 < 2147483648) :
    toInt32 (n1 : Int) ≤ toInt32 (n2 : Int) ↔ n1 ≤ n2 := by
  rw [toInt32_eq _ (by omega) (by omega), toInt32_eq _ (by omega) (by omega)]
  split <;> split <;> omega

/-- Standalone inversion of `parseCidr` success (no assumption on the
shape of the input). -/
theorem parseCidr_success_inv (cidr : String) (herr : (parseCidr cidr).error = none) :
    ∃ ip maskStr rest mask, jsSplit '/' cidr = ip :: maskStr :: rest ∧
      jsParseInt maskStr = some mask ∧ 1 ≤ mask ∧ mask ≤ 32 ∧
      2 ^ (32 - mask.toNat) ≤ 1024 ∧
      parseCidr cidr = cidrHostList (ipToLong ip) mask.toNat := by
  cases hsplit : jsSplit '/' cidr with
  | nil => simp [parseCidr, hsplit] at herr
  | cons ip tl =>
    cases tl with
    | nil => simp [parseCidr, hsplit] at herr
    | cons maskStr rest =>
      cases hmask : jsParseInt maskStr with
      | none =>
        exfalso
        simp only [parseCidr, hsplit, hmask] at herr
        split at herr
        · simp at herr
        · split at herr
          · simp at herr
          · simp at herr
      | some mask =>
        obtain ⟨h1, h2, h3, h4⟩ :=
          parseCidr_success cidr ip maskStr rest mask hsplit hmask herr
        exact ⟨ip, maskStr, rest, mask, rfl, hmask, h1, h2, h3, h4⟩

theorem block_sign_aux (P q t n1 n2 : Nat) (hn1a : P * q ≤ n1)
    (hn2b : n2 < P * q + P) (h : n1 < P * t) : n2 < P * t := by
  have hq : q < t := Nat.lt_of_mul_lt_mul_left (lt_of_le_of_lt hn1a h)
  calc n2 < P * q + P := hn2b
  _ = P * (q + 1) := by ring
  _ ≤ P * t := Nat.mul_le_mul_left P hq

/-- Two values inside the same aligned block `[P*q, P*q + P)` with
`P ∣ 2^31` lie on the same side of `2^31`. -/
theorem block_sign (P q n1 n2 : Nat) (hdvd : P ∣ 2147483648)
    (hn1a : P * q ≤ n1) (hn1b : n1 < P * q + P)
    (hn2a : P * q ≤ n2) (hn2b : n2 < P * q + P) :
    (n1 < 2147483648 ↔ n2 < 2147483648) := by
  obtain ⟨t, ht⟩ := hdvd
  rw [ht]
  constructor
  · intro h
    exact block_sign_aux P q t n1 n2 hn1a hn2b h
  · intro h
    exact block_sign_aux P q t n2 n1 hn2a hn1b h

/-- The host list of every accepted CIDR is `longToIp` of a contiguous
numeric interval `[start, start + len)` that fits inside 32 bits and
stays on one side of `2^31` (so the signed comparator of
`ipToSortable` orders it exactly like the unsigned values). -/
theorem parseCidr_ipList_block (cidr : String) (herr : (parseCidr cidr).error = none) :
    ∃ start len, 1 ≤ len ∧ start + len ≤ 4294967296 ∧
      (∀ n1 n2, start ≤ n1 → n1 < start + len → start ≤ n2 → n2 < start + len →
        (n1 < 2147483648 ↔ n2 < 2147483648)) ∧
      (parseCidr cidr).ipList = (List.range len).map (fun k => longToIp (start + k)) := by
  obtain ⟨ip, maskStr, rest, mask, hsplit, hmask, h1, h2, h3, heq⟩ :=
    parseCidr_success_inv cidr herr
  have ha : ipToLong ip < 4294967296 := toUint32_lt _
  have hm1 : 1 ≤ mask.toNat := by omega
  have hm2 : mask.toNat ≤ 32 := by omega
  have hlist : (parseCidr cidr).ipList =
      (List.range (hostLen mask.toNat)).map
        (fun k => longToIp (hostStart (ipToLong ip) mask.toNat + k)) := by
    rw [heq, cidrHostList_eq _ mask.toNat ha hm1 hm2]
  have hb := hostStart_add_hostLen (ipToLong ip) mask.toNat ha hm1 hm2
  have hdvd : (2 : Nat) ^ (32 - mask.toNat) ∣ 2147483648 := by
    rw [show (2147483648 : Nat) = 2 ^ 31 by norm_num]
    exact pow_dvd_pow 2 (by omega)
  by_cases e32 : mask.toNat = 32
  · refine ⟨ipToLong ip, 1, le_rfl, by omega, fun n1 n2 a b c d => by omega, ?_⟩
    rw [hlist]
    unfold hostStart hostLen
    rw [if_pos e32, if_pos e32]
  · by_cases e31 : mask.toNat = 31
    · have hstart : hostStart (ipToLong ip) mask.toNat =
          2 ^ (32 - mask.toNat) * (ipToLong ip / 2 ^ (32 - mask.toNat)) := by
        unfold hostStart
        rw [if_neg e32, if_pos e31]
      have hlen2 : hostLen mask.toNat = 2 := by
        unfold hostLen
        rw [if_neg e32, if_pos e31]
      have hPeq : (2 : Nat) ^ (32 - mask.toNat) = 2 := by
        rw [e31]
        norm_num
      refine ⟨2 ^ (32 - mask.toNat) * (ipToLong ip / 2 ^ (32 - mask.toNat)), 2,
        by omega, ?_, ?_, ?_⟩
      · rw [hstart, hlen2] at hb
        exact hb
      · intro n1 n2 hn1a hn1b hn2a hn2b
        exact block_sign (2 ^ (32 - mask.toNat)) (ipToLong ip / 2 ^ (32 - mask.toNat))
          n1 n2 hdvd hn1a (by omega) hn2a (by omega)
      · rw [hlist, hstart, hlen2]
    · have hm30 : mask.toNat ≤ 30 := by omega
      have hpow4 : (4 : Nat) ≤ 2 ^ (32 - mask.toNat) := by
        calc (4 : Nat) = 2 ^ 2 := by norm_num
        _ ≤ 2 ^ (32 - mask.toNat) := Nat.pow_le_pow_right (by norm_num) (by omega)
      have hstart : hostStart (ipToLong ip) mask.toNat =
          2 ^ (32 - mask.toNat) * (ipToLong ip / 2 ^ (32 - mask.toNat)) + 1 := by
        unfold hostStart
        rw [if_neg e32, if_neg e31]
      have hlenv : hostLen mask.toNat = 2 ^ (32 - mask.toNat) - 2 := by
        unfold hostLen
        rw [if_neg e32, if_neg e31]
      refine ⟨2 ^ (32 - mask.toNat) * (ipToLong ip / 2 ^ (32 - mask.toNat)) + 1,
        2 ^ (32 - mask.toNat) - 2, by omega, ?_, ?_, ?_⟩
      · rw [hstart, hlenv] at hb
        exact hb
      · intro n1 n2 hn1a hn1b hn2a hn2b
        exact block_sign (2 ^ (32 - mask.toNat)) (ipToLong ip / 2 ^ (32 - mask.toNat))
          n1 n2 hdvd (by omega) (by omega) (by omega) (by omega)
      · rw [hlist, hstart, hlenv]

/-- C9: starting from the empty collection, after any sequence of the
scan's device-collection mutations — insertions of discovered devices
whose IPs come from the resolved address list, in any completion
order, interleaved with classification updates — the collection is
sorted ascending by the numeric (unsigned, most-significant-octet
first) IP value.  Each insertion re-sorts with the `ipToSortable`
comparator; inside one resolved block the signed comparator coincides
with the unsigned order. -/
theorem devices_sorted_invariant (cidr : String) (ops : List ScanOp)
    (herr : (parseCidr cidr).error = none)
    (hins : ∀ d : Device, ScanOp.insert d ∈ ops → d.ip ∈ (parseCidr cidr).ipList) :
    ((runScanOps ops).map (fun d => ipToLong d.ip)).Pairwise (· ≤ ·) := by
  obtain ⟨start, len, hlen, hbound, hsign, hlist⟩ := parseCidr_ipList_block cidr herr
  have hmem : ∀ s ∈ (parseCidr cidr).ipList,
      ∃ n, start ≤ n ∧ n < start + len ∧ s = longToIp n := by
    intro s hs
    rw [hlist] at hs
    obtain ⟨k, hk, hkeq⟩ := List.mem_map.mp hs
    rw [List.mem_range] at hk
    exact ⟨start + k, Nat.le_add_right start k, by omega, hkeq.symm⟩
  have hcmp : ∀ s1 s2, s1 ∈ (parseCidr cidr).ipList → s2 ∈ (parseCidr cidr).ipList →
      ipToSortable s1 ≤ ipToSortable s2 → ipToLong s1 ≤ ipToLong s2 := by
    intro s1 s2 hs1 hs2 hle
    obtain ⟨n1, hn1a, hn1b, rfl⟩ := hmem s1 hs1
    obtain ⟨n2, hn2a, hn2b, rfl⟩ := hmem s2 hs2
    rw [ipToLong_longToIp n1 (by omega), ipToLong_longToIp n2 (by omega)]
    rw [ipToSortable_longToIp n1 (by omega), ipToSortable_longToIp n2 (by omega)] at hle
    exact (toInt32_le_iff n1 n2 (by omega) (by omega)
      (hsign n1 n2 hn1a hn1b hn2a hn2b)).mp hle
  have htrans : ∀ a b c : Device,
      (decide (ipToSortable a.ip ≤ ipToSortable b.ip)) = true →
      (decide (ipToSortable b.ip ≤ ipToSortable c.ip)) = true →
      (decide (ipToSortable a.ip ≤ ipToSortable c.ip)) = true := by
    intro a b c hab hbc
    rw [decide_eq_true_eq] at hab hbc ⊢
    exact le_trans hab hbc
  have htotal : ∀ a b : Device,
      ((decide (ipToSortable a.ip ≤ ipToSortable b.ip)) ||
       (decide (ipToSortable b.ip ≤ ipToSortable a.ip))) = true := by
    intro a b
    rw [Bool.or_eq_true, decide_eq_true_eq, decide_eq_true_eq]
    exact Int.le_total _ _
  have hinv : ∀ (rest : List ScanOp) (acc : List Device),
      (∀ d : Device, ScanOp.insert d ∈ rest → d.ip ∈ (parseCidr cidr).ipList) →
      (∀ d ∈ acc, d.ip ∈ (parseCidr cidr).ipList) →
      acc.Pairwise (fun a b => ipToSortable a.ip ≤ ipToSortable b.ip) →
      (∀ d ∈ rest.foldl applyScanOp acc, d.ip ∈ (parseCidr cidr).ipList) ∧
      (rest.foldl applyScanOp acc).Pairwise
        (fun a b => ipToSortable a.ip ≤ ipToSortable b.ip) := by
    intro rest
    induction rest with
    | nil =>
      intro acc _ hm0 hp0
      exact ⟨hm0, hp0⟩
    | cons op rest ih =>
      intro acc hops hm0 hp0
      simp only [List.foldl_cons]
      apply ih
      · intro d hd
        exact hops d (List.mem_cons_of_mem _ hd)
      · cases op with
        | insert d0 =>
          intro d hd
          simp only [applyScanOp, insertDevice] at hd
          rw [List.mem_mergeSort] at hd
          rcases List.mem_append.mp hd with h | h
          · exact hm0 d h
          · rw [List.mem_singleton] at h
            subst h
            exact hops d (List.mem_cons_self _ _)
        | classified ip r c =>
          intro d hd
          simp only [applyScanOp, applyClassification] at hd
          obtain ⟨d0, hd0, heq0⟩ := List.mem_map.mp hd
          have hipeq : d.ip = d0.ip := by
            rw [← heq0]
            by_cases h0 : d0.ip = ip
            · rw [if_pos h0]
            · rw [if_neg h0]
          rw [hipeq]
          exact hm0 d0 hd0
        | failed ip =>
          intro d hd
          simp only [applyScanOp, applyClassificationFailure] at hd
          obtain ⟨d0, hd0, heq0⟩ := List.mem_map.mp hd
          have hipeq : d.ip = d0.ip := by
            rw [← heq0]
            by_cases h0 : d0.ip = ip
            · rw [if_pos h0]
            · rw [if_neg h0]
          rw [hipeq]
          exact hm0 d0 hd0
      · cases op with
        | insert d0 =>
          simp only [applyScanOp, insertDevice]
          have hs := List.sorted_mergeSort htrans htotal (acc ++ [d0])
          exact hs.imp (fun h => of_decide_eq_true h)
        | classified ip r c =>
          simp only [applyScanOp, applyClassification]
          refine List.Pairwise.map _ (fun a b hab => ?_) hp0
          by_cases ha0 : a.ip = ip <;> by_cases hb0 : b.ip = ip
          · rw [if_pos ha0, if_pos hb0]; exact hab
          · rw [if_pos ha0, if_neg hb0]; exact hab
          · rw [if_neg ha0, if_pos hb0]; exact hab
          · rw [if_neg ha0, if_neg hb0]; exact hab
        | failed ip =>
          simp only [applyScanOp, applyClassificationFailure]
          refine List.Pairwise.map _ (fun a b hab => ?_) hp0
          by_cases ha0 : a.ip = ip <;> by_cases hb0 : b.ip = ip
          · rw [if_pos ha0, if_pos hb0]; exact hab
          · rw [if_pos ha0, if_neg hb0]; exact hab
          · rw [if_neg ha0, if_pos hb0]; exact hab
          · rw [if_neg ha0, if_neg hb0]; exact hab
  have h := hinv ops [] hins (fun d hd => absurd hd (List.not_mem_nil d))
    List.Pairwise.nil
  rw [List.pairwise_map]
  simp only [runScanOps]
  exact List.Pairwise.imp_of_mem
    (fun ha hb hr => hcmp _ _ (h.1 _ ha) (h.1 _ hb) hr) h.2

/-- C9 witness: inserting `10.0.0.2` then `10.0.0.1` (reverse
completion order) from the `10.0.0.0/30` block leaves the collection
numerically sorted. -/
theorem devices_sorted_invariant_witness :
    ((runScanOps
        [ScanOp.insert ⟨"10.0.0.2", DeviceStatus.Online, [80], "a", true, "c", [], none⟩,
         ScanOp.insert ⟨"10.0.0.1", DeviceStatus.Online, [22], "a", true, "c", [], none⟩]).map
      (fun d => ipToLong d.ip)).Pairwise (· ≤ ·) := by
  apply devices_sorted_invariant "10.0.0.0/30"
  · decide
  · intro d hd
    simp only [List.mem_cons, List.not_mem_nil, or_false] at hd
    rcases hd with h | h <;>
      · rw [ScanOp.insert.injEq] at h
        subst h
        decide

end NetworkAnalyzer

